import Mathlib

/-!
Verification development for the quiz-buddy-agent repository.

The core of the repository (src/state_utils.py, src/quiz_agentic_design.py)
is a pure text-to-structure-to-merged-state pipeline over JSON-like values.
This file gives a shallow embedding of that core:

* `Json` models Python JSON-like values (dicts are association lists that
  keep insertion order, mirroring CPython dict semantics).
* `bulk_set_state` embeds `state_utils.bulk_set_state` (the StateReconciler);
  Python exceptions are modelled by `Except String`.
* `parse_tool_input` embeds `state_utils.parse_tool_input` (ToolInputParser).
* `parse_llm_plan_response` embeds `state_utils.parse_llm_plan_response`
  (PlanResponseParser).
* `populate_flashcards` embeds `state_utils.populate_flashcards`
  (FlashcardPopulator); the sqlite-backed repository collaborator
  `get_flashcards_by_topic_id` is a function parameter.
* `execute_plan` embeds the tool-dispatch loop of
  `quiz_agentic_design.execute_plan` (PlanExecutor).
* `evaluate_preconditions` embeds the precondition checks of
  `quiz_agentic_design.evaluate` that run before the external evaluator
  chain is invoked.
-/

/-- JSON-like Python value: scalar, ordered sequence, or string-keyed mapping.
Mappings are association lists in insertion order, as in CPython.
Numeric literals are modelled as integers (no claim exercises float values). -/
inductive Json where
  | pyNone : Json
  | pyBool (b : Bool) : Json
  | pyInt (n : Int) : Json
  | pyStr (s : String) : Json
  | pyList (elems : List Json) : Json
  | pyDict (fields : List (String × Json)) : Json
deriving Repr, BEq

/-- A Python dict with JSON-like values, in insertion order. -/
abbrev Obj := List (String × Json)

/-- Lookup of a key in a dict: the first binding wins (Python dicts hold at
most one binding per key; first = only). Models `d[k]` / `d.get(k)`. -/
def pyLookup (k : String) : Obj → Option Json
  | [] => none
  | (k', v) :: rest => if k' = k then some v else pyLookup k rest

/-- Models the Python assignment `d[k] = v`: replaces the value at the key's
existing position if present, otherwise appends the binding at the end. -/
def pySet (d : Obj) (k : String) (v : Json) : Obj :=
  match d with
  | [] => [(k, v)]
  | (k', v') :: rest => if k' = k then (k', v) :: rest else (k', v') :: pySet rest k v

/-- Models the Python dict merge expression (a ** dict-unpacking of `a` then
`b`): start from `a` and assign each binding of `b` in order. Incoming keys
overwrite in place; fresh keys are appended. -/
def pyMerge (a b : Obj) : Obj := b.foldl (fun acc kv => pySet acc kv.1 kv.2) a

/-- True exactly on mapping values; models `isinstance(v, dict)`. -/
def Json.isObjB : Json → Bool
  | .pyDict _ => true
  | _ => false

/-- Split a character list at the first occurrence of `sep`; `none` when
`sep` does not occur. Models Python `s.split(sep, 1)` for a one-character
separator (together with the length-2 check made by the callers). -/
def splitFirst (sep : Char) : List Char → Option (List Char × List Char)
  | [] => none
  | c :: rest =>
    if c = sep then some ([], rest)
    else (splitFirst sep rest).map (fun p => (c :: p.1, p.2))

/-- Python `str` whitespace as stripped by `str.strip()`. -/
def isPySpace (c : Char) : Bool :=
  c = ' ' || c = '\t' || c = '\n' || c = '\r' || c = '\x0b' || c = '\x0c'

/-- Models `str.strip()` on a character list. -/
def pyStripCL (s : List Char) : List Char :=
  ((s.dropWhile isPySpace).reverse.dropWhile isPySpace).reverse

/-- Models `str.strip()`. -/
def pyStripS (s : String) : String := String.mk (pyStripCL s.toList)

/-- Whether `pat` is an initial segment of `s`; models `str.startswith`. -/
def startsWithCL : List Char → List Char → Bool
  | [], _ => true
  | p :: ps, s =>
    match s with
    | [] => false
    | c :: cs => p = c && startsWithCL ps cs

/-- Worker for `splitSub`, fuelled so that it is structurally recursive and
evaluates by kernel reduction. The fuel is an upper bound on the number of
characters still to scan. -/
def splitSubGo (sep : List Char) : Nat → List Char → List Char → List (List Char)
  | _, acc, [] => [acc.reverse]
  | 0, acc, s => [acc.reverse ++ s]
  | fuel + 1, acc, c :: rest =>
    if startsWithCL sep (c :: rest) then
      acc.reverse :: splitSubGo sep fuel [] (List.drop (sep.length - 1) rest)
    else
      splitSubGo sep fuel (c :: acc) rest

/-- Models Python `s.split(sep)` for a non-empty separator: non-overlapping
occurrences, scanned left to right. -/
def splitSub (sep s : List Char) : List (List Char) :=
  splitSubGo sep s.length [] s

/-- Models Python `s.split(sep)` at the `String` level. -/
def pySplit (sep s : String) : List String :=
  (splitSub sep.toList s.toList).map String.mk

/-- Error message for the one place the reconciler can raise (see
`mergeChild`): Python evaluates a dict-unpacking of a non-mapping value. -/
def notAMappingMsg : String := "TypeError: merge target is not a mapping"

/-- Nested-update step of `bulk_set_state` (src/state_utils.py lines 48-56):
assign into the copied parent mapping at `child`.  When the incoming value is
a mapping and the existing `parent[child]` is present, Python evaluates a
dict-unpacking of that existing value, which raises `TypeError` when it is not
itself a mapping — modelled by the `.error` branch. -/
def mergeChild (pv : Obj) (child : String) (value : Json) : Except String Obj :=
  match value with
  | .pyDict vv =>
    match pyLookup child pv with
    | some (.pyDict old) => .ok (pySet pv child (.pyDict (pyMerge old vv)))
    | some _ => .error notAMappingMsg
    | none => .ok (pySet pv child (.pyDict vv))
  | _ => .ok (pySet pv child value)

/-- One upsert pass of the `flashcard_states` branch of `bulk_set_state`
(src/state_utils.py lines 88-95): find the first existing mapping record with
an equal `id` and merge the incoming fields onto it in place; append when no
match exists. Absent `id`s compare as Python `None == None`. -/
def upsertOne (updated : List Json) (nc : Obj) : List Json :=
  match updated with
  | [] => [.pyDict nc]
  | c :: rest =>
    match c with
    | .pyDict cf =>
      if pyLookup "id" cf == pyLookup "id" nc then .pyDict (pyMerge cf nc) :: rest
      else .pyDict cf :: upsertOne rest nc
    | _ => c :: upsertOne rest nc

/-- The incoming-record loop of the `flashcard_states` branch of
`bulk_set_state` (src/state_utils.py lines 83-95): non-mapping incoming
records are skipped with a warning. -/
def upsertCards (updated : List Json) (incoming : List Json) : List Json :=
  incoming.foldl
    (fun acc nc =>
      match nc with
      | .pyDict ncf => upsertOne acc ncf
      | _ => acc)
    updated

/-- One iteration of the update loop of `bulk_set_state`
(src/state_utils.py lines 43-99). Returns the list of `(field, merged)`
pairs this update contributes (empty when the update is skipped), or an
error when the Python code would raise. -/
def processUpdate (state : Obj) (field : String) (value : Json) :
    Except String (List (String × Json)) :=
  match splitFirst '.' field.toList with
  | some (p, c) =>
    let parent := String.mk p
    let child := String.mk c
    match pyLookup parent state with
    | some (.pyDict pv) => (mergeChild pv child value).map (fun pv' => [(parent, .pyDict pv')])
    | some _ => .ok []
    | none => (mergeChild [] child value).map (fun pv' => [(parent, .pyDict pv')])
  | none =>
    match value with
    | .pyDict vv =>
      let merged :=
        match pyLookup field state with
        | some (.pyDict cur) => pyMerge cur vv
        | _ => vv
      .ok [(field, .pyDict merged)]
    | _ =>
      if field = "flashcard_states" then
        match value with
        | .pyList cards =>
          let current :=
            match pyLookup field state with
            | some (.pyList cur) => cur
            | _ => []
          .ok [(field, .pyList (upsertCards current cards))]
        | _ => .ok []
      else .ok [(field, value)]

/-- Embedding of `state_utils.bulk_set_state` (the StateReconciler): fold the
per-update results in input order against the fixed `state` snapshot; a raise
inside the loop aborts the whole call, modelled by error propagation. -/
def bulk_set_state (state : Obj) : List (String × Json) → Except String (List (String × Json))
  | [] => .ok []
  | (f, v) :: rest =>
    match processUpdate state f v with
    | .error e => .error e
    | .ok m =>
      match bulk_set_state state rest with
      | .error e => .error e
      | .ok ms => .ok (m ++ ms)

/-- The opening-brace character, written numerically. -/
def lbraceCh : Char := Char.ofNat 123

/-- The closing-brace character, written numerically. -/
def rbraceCh : Char := Char.ofNat 125

/-- JSON inter-token whitespace (space, tab, newline, carriage return). -/
def isJsonWs (c : Char) : Bool := c = ' ' || c = '\t' || c = '\n' || c = '\r'

/-- Drop leading JSON whitespace. -/
def skipWs (cs : List Char) : List Char := cs.dropWhile isJsonWs

/-- Decoded form of a JSON string escape sequence; `none` for escapes the
model does not cover (notably unicode escapes, which no claim exercises). -/
def jsonEscChar (e : Char) : Option Char :=
  if e = '"' || e = '\\' || e = '/' then some e
  else if e = 'n' then some '\n'
  else if e = 't' then some '\t'
  else if e = 'r' then some '\r'
  else if e = 'b' then some '\x08'
  else if e = 'f' then some '\x0c'
  else none

/-- Scan the body of a JSON string literal (the opening quote already
consumed): returns the decoded characters and the input after the closing
quote. Fuelled by the remaining input length. -/
def parseStrChars : Nat → List Char → Option (List Char × List Char)
  | 0, _ => none
  | fuel + 1, cs =>
    match cs with
    | [] => none
    | '"' :: rest => some ([], rest)
    | '\\' :: rest =>
      match rest with
      | [] => none
      | e :: rest2 =>
        match jsonEscChar e with
        | none => none
        | some ch => (parseStrChars fuel rest2).map (fun p => (ch :: p.1, p.2))
    | c :: rest => (parseStrChars fuel rest).map (fun p => (c :: p.1, p.2))

/-- Parse a JSON number token. Modelled from the spec: the external decoder
accepts a structured literal; integer literals only (optional minus, no
leading zeros, and no fraction or exponent — no claim exercises floats, and
a non-integer literal simply fails to decode in this model). -/
def parseNumber (cs : List Char) : Option (Json × List Char) :=
  let neg : Bool := match cs with
    | '-' :: _ => true
    | _ => false
  let cs' := if neg then cs.drop 1 else cs
  let ds := cs'.takeWhile Char.isDigit
  let rest := cs'.dropWhile Char.isDigit
  if ds = [] then none
  else if ds.length > 1 ∧ ds.headD ' ' = '0' then none
  else
    match rest with
    | '.' :: _ => none
    | 'e' :: _ => none
    | 'E' :: _ => none
    | _ =>
      let n : Nat := ds.foldl (fun a c => a * 10 + (c.toNat - 48)) 0
      some (.pyInt (if neg then -(n : Int) else (n : Int)), rest)

/-- Assemble a decoded JSON object from its parsed key/value pairs: Python's
dict builder keeps the first position of a repeated key and its last value. -/
def buildObj (pairs : List (String × Json)) : Obj :=
  pairs.foldl (fun d kv => pySet d kv.1 kv.2) []

/-- The family of mutually recursive JSON parsing functions at one fuel
level: a value parser, array-item parsers (directly after `[`, and the
element loop), and object-item parsers (directly after the opening brace,
and the member loop). -/
structure JParsers where
  val : List Char → Option (Json × List Char)
  arrItems : List Char → Option (List Json × List Char)
  arrLoop : List Char → Option (List Json × List Char)
  objItems : List Char → Option (List (String × Json) × List Char)
  objLoop : List Char → Option (List (String × Json) × List Char)

/-- Fuel-indexed recursive-descent JSON parser. Modelled from the spec: the
ToolInputParser attempts to decode each value as a structured literal
(object, array, number, boolean, string, null) with the external `json`
decoder, which is not part of the repository; this is a faithful executable
model of that decoder on the literal forms the specification names. -/
def jparsers : Nat → JParsers
  | 0 =>
    ⟨fun _ => none, fun _ => none, fun _ => none, fun _ => none, fun _ => none⟩
  | fuel + 1 =>
    let prev := jparsers fuel
    ⟨fun cs =>
        match skipWs cs with
        | [] => none
        | c :: rest =>
          if c = '"' then
            (parseStrChars (rest.length + 1) rest).map
              (fun p => (Json.pyStr (String.mk p.1), p.2))
          else if c = lbraceCh then
            (prev.objItems rest).map (fun p => (Json.pyDict (buildObj p.1), p.2))
          else if c = '[' then
            (prev.arrItems rest).map (fun p => (Json.pyList p.1, p.2))
          else if startsWithCL "null".toList (c :: rest) then
            some (Json.pyNone, (c :: rest).drop 4)
          else if startsWithCL "true".toList (c :: rest) then
            some (Json.pyBool true, (c :: rest).drop 4)
          else if startsWithCL "false".toList (c :: rest) then
            some (Json.pyBool false, (c :: rest).drop 5)
          else parseNumber (c :: rest),
      fun cs =>
        match skipWs cs with
        | ']' :: r => some ([], r)
        | other => prev.arrLoop other,
      fun cs =>
        match prev.val cs with
        | none => none
        | some (v, r1) =>
          match skipWs r1 with
          | ',' :: r2 => (prev.arrLoop r2).map (fun p => (v :: p.1, p.2))
          | ']' :: r2 => some ([v], r2)
          | _ => none,
      fun cs =>
        match skipWs cs with
        | [] => none
        | c :: r => if c = rbraceCh then some ([], r) else prev.objLoop (c :: r),
      fun cs =>
        match skipWs cs with
        | '"' :: r =>
          match parseStrChars (r.length + 1) r with
          | none => none
          | some (kcs, r1) =>
            match skipWs r1 with
            | ':' :: r2 =>
              match prev.val r2 with
              | none => none
              | some (v, r3) =>
                match skipWs r3 with
                | [] => none
                | ',' :: r4 => (prev.objLoop r4).map (fun p => ((String.mk kcs, v) :: p.1, p.2))
                | c :: r4 => if c = rbraceCh then some ([(String.mk kcs, v)], r4) else none
            | _ => none
        | _ => none⟩

/-- Models `json.loads`: decode the whole string as one JSON value, allowing
surrounding whitespace; `none` models `json.JSONDecodeError`. -/
def jsonLoads (s : String) : Option Json :=
  let cs := s.toList
  match (jparsers (8 * (cs.length + 8))).val cs with
  | some (v, rest) => if skipWs rest = [] then some v else none
  | none => none

/-- One iteration of the item loop of `parse_tool_input`
(src/state_utils.py lines 111-139): split the item on the first `=`; decode
the value as JSON, falling back to the raw text on decode failure — except
for the reserved key `flashcard_states`, whose value must decode to a list
(else the item is dropped) and whose non-mapping elements are filtered out.
`none` models the `continue` branches. -/
def processItem (item : String) : Option (String × Json) :=
  match splitFirst '=' item.toList with
  | none => none
  | some (k, v) =>
    let key := String.mk (pyStripCL k)
    let value := String.mk (pyStripCL v)
    match jsonLoads value with
    | some pv =>
      if key = "flashcard_states" then
        match pv with
        | .pyList l => some (key, .pyList (l.filter Json.isObjB))
        | _ => none
      else some (key, pv)
    | none =>
      if key = "flashcard_states" then none
      else some (key, .pyStr value)

/-- Embedding of `state_utils.parse_tool_input` (the ToolInputParser): strip
the input, split it on `;`, drop blank items, and process each item in
order, skipping malformed ones. -/
def parse_tool_input (input_str : String) : List (String × Json) :=
  let s := pyStripS input_str
  let items := ((splitSub ";".toList s.toList).map (fun l => String.mk (pyStripCL l))).filter
    (fun i => i ≠ "")
  items.filterMap processItem

/-- The bracket-balancing scan of `parse_llm_plan_response`
(src/state_utils.py lines 192-207): starting at the first `[`, walk the
characters keeping a depth counter, and return the relative index at which a
`]` brings the depth back to zero; `none` when the scan never does
(`end_idx == -1`), which makes the step malformed. -/
def findClose : List Char → Int → Option Nat
  | [], _ => none
  | c :: rest, depth =>
    let d := if c = '[' then depth + 1 else if c = ']' then depth - 1 else depth
    if c = ']' ∧ d = 0 then some 0
    else (findClose rest d).map (fun n => n + 1)

/-- One iteration of the step loop of `parse_llm_plan_response`
(src/state_utils.py lines 175-218): split the fragment on the first `=` into
step number and remainder, take the tool name before the first `[`, balance
brackets to find the tool input, and parse the input. `none` models the
`continue` branches that skip a malformed step. -/
def parseStepFragment (desc frag : String) :
    Option (String × String × String × List (String × Json)) :=
  match splitFirst '=' frag.toList with
  | none => none
  | some (sp0, sp1) =>
    let step_id := "E" ++ String.mk (pyStripCL sp0)
    let tool_part := pyStripCL sp1
    match List.findIdx? (fun c => c = '[') tool_part with
    | none => none
    | some i =>
      let tool_name := String.mk (pyStripCL (tool_part.take i))
      match findClose (tool_part.drop i) 0 with
      | none => none
      | some j =>
        let tool_input := String.mk (pyStripCL (((tool_part.drop i).drop 1).take (j - 1)))
        some (desc, step_id, tool_name, parse_tool_input tool_input)

/-- The conditions under which the step loop of `parse_llm_plan_response`
skips a fragment: no `=` to split on, no `[` after the tool name, or a
bracket depth that never returns to zero. -/
def malformedStep (frag : String) : Bool :=
  match splitFirst '=' frag.toList with
  | none => true
  | some (_, sp1) =>
    let tool_part := pyStripCL sp1
    match List.findIdx? (fun c => c = '[') tool_part with
    | none => true
    | some i => (findClose (tool_part.drop i) 0).isNone

/-- The step loop of `parse_llm_plan_response` over the fragments of one
plan section (src/state_utils.py lines 175-218), in source order; skipped
fragments contribute nothing. -/
def parseSectionSteps (desc : String) : List String → List (String × String × String × List (String × Json))
  | [] => []
  | frag :: rest =>
    match parseStepFragment desc frag with
    | some step => step :: parseSectionSteps desc rest
    | none => parseSectionSteps desc rest

/-- One iteration of the section loop of `parse_llm_plan_response`
(src/state_utils.py lines 161-222): skip blank sections, split on the step
delimiter, take the first fragment as the description (normalising a leading
`Plan: ` produced by the first section), and process the step fragments. -/
def parseSection (s : String) : List (String × String × String × List (String × Json)) :=
  if pyStripS s = "" then []
  else
    match pySplit "\n#E" s with
    | [] => []
    | d :: frags =>
      let d0 := pyStripS d
      let desc :=
        if startsWithCL "Plan: ".toList d0.toList then pyStripS (String.mk (d0.toList.drop 6))
        else d0
      parseSectionSteps desc frags

/-- Embedding of `state_utils.parse_llm_plan_response` (the
PlanResponseParser): split the raw response on the section delimiter and
process each section; the Python code wraps every section and every step in
exception handlers that skip the offending fragment, so the function is
total by construction. -/
def parse_llm_plan_response (response_content : String) :
    List (String × String × String × List (String × Json)) :=
  (pySplit "\nPlan: " response_content).flatMap parseSection

/-- A flashcard record as returned by the repository collaborator
`tutor_db.get_flashcards_by_topic_id` (a sqlite row with these columns). -/
structure Flashcard where
  id : Int
  topic_id : Int
  question : String
  marking_criteria : String

/-- The fresh state entry `populate_flashcards` builds for one repository
record (src/state_utils.py lines 241-250). -/
def flashcardEntry (f : Flashcard) : Json :=
  .pyDict [("id", .pyInt f.id), ("status", .pyStr "queued"), ("question", .pyStr f.question),
        ("marking_criteria", .pyStr f.marking_criteria), ("attempts", .pyInt 0),
        ("user_answers", .pyList []), ("evaluation", .pyNone)]

/-- Models the mutation `new_flashcard_states[0]["status"] = "active"`. -/
def setStatusActive : Json → Json
  | .pyDict fs => .pyDict (pySet fs "status" (.pyStr "active"))
  | j => j

/-- Embedding of `state_utils.populate_flashcards` (the FlashcardPopulator).
The repository collaborator is the function parameter `repo`; Python passes
the topic identifier through unchecked, so it is an arbitrary JSON value. -/
def populate_flashcards (repo : Json → List Flashcard) (topic_id : Json) : List Json :=
  match (repo topic_id).map flashcardEntry with
  | [] => []
  | c :: rest => setStatusActive c :: rest

/-- A plan step as consumed by `execute_plan`: the executor reads only the
`tool` and `tool_input` keys of the step dictionaries built by
`generate_plan`. -/
structure PlanStep where
  tool : String
  tool_input : List (String × Json)

/-- Models `current_state.update(updated_values)` for a list of pairs. -/
def applyUpdates (state : Obj) (updates : List (String × Json)) : Obj :=
  updates.foldl (fun acc kv => pySet acc kv.1 kv.2) state

/-- One iteration of the step loop of `execute_plan`
(src/quiz_agentic_design.py lines 221-237): dispatch on the tool name;
`bulk_set_state` folds the reconciler's pairs into the working state,
`populate_flashcards` reads the first tool-input pair's value as the topic
(raising `IndexError` when the input is empty) and replaces
`flashcard_states` only when the populator's result is non-empty; any other
tool name is a no-op. -/
def execStep (repo : Json → List Flashcard) (state : Obj) (step : PlanStep) :
    Except String Obj :=
  let afterBulk : Except String Obj :=
    if step.tool = "bulk_set_state" then
      match bulk_set_state state step.tool_input with
      | .error e => .error e
      | .ok upd => .ok (if upd.isEmpty then state else applyUpdates state upd)
    else .ok state
  match afterBulk with
  | .error e => .error e
  | .ok s1 =>
    if step.tool = "populate_flashcards" then
      match step.tool_input with
      | [] => .error "IndexError: list index out of range"
      | (_, v) :: _ =>
        let fs := populate_flashcards repo v
        .ok (if fs.isEmpty then s1 else pySet s1 "flashcard_states" (.pyList fs))
    else .ok s1

/-- Embedding of the step loop of `quiz_agentic_design.execute_plan` (the
PlanExecutor): steps are applied sequentially to a working copy of the
state, so later steps observe earlier steps' effects; an uncaught Python
exception aborts the loop, modelled by error propagation. -/
def execute_plan (repo : Json → List Flashcard) (state : Obj) :
    List PlanStep → Except String Obj
  | [] => .ok state
  | step :: rest =>
    match execStep repo state step with
    | .error e => .error e
    | .ok s' => execute_plan repo s' rest

/-- A flashcard state entry, per the repository's data model: the fields
`evaluate` reads from each element of `flashcard_states`. -/
structure FlashcardState where
  status : String
  question : String
  marking_criteria : String
  attempts : Int
  user_answers : List String
  evaluation : Option Json

/-- The inputs `evaluate` hands to the external evaluator chain. -/
structure EvaluatorInput where
  question : String
  marking_criteria : String
  student_answer : String

/-- Embedding of the precondition phase of `quiz_agentic_design.evaluate`
(lines 131-160), everything that runs before the external evaluator chain is
invoked: find the first flashcard whose status is `active` (raising when
there is none), check that it has a recorded answer (raising when it has
none), and otherwise assemble the evaluator's input from the active card and
its latest answer. -/
def evaluate_preconditions (cards : List FlashcardState) : Except String EvaluatorInput :=
  match cards.find? (fun c => c.status == "active") with
  | none => .error "No active flashcard found in state"
  | some card =>
    if card.user_answers = [] then .error "No user answer found for active flashcard"
    else .ok ⟨card.question, card.marking_criteria, card.user_answers.getLastD ""⟩

/-- Whether an exception-modelling computation succeeded. -/
def isOkE {α : Type} : Except String α → Bool
  | .ok _ => true
  | .error _ => false

/-- Reading through a single Python dict assignment. -/
theorem pyLookup_pySet (d : Obj) (k k1 : String) (v1 : Json) :
    pyLookup k (pySet d k1 v1) = if k1 = k then some v1 else pyLookup k d := by
  induction d with
  | nil => simp [pySet, pyLookup]
  | cons kv rest ih =>
    obtain ⟨k', v'⟩ := kv
    by_cases h1 : k' = k1
    · subst h1
      by_cases h2 : k' = k <;> simp [pySet, pyLookup, h2]
    · by_cases h2 : k' = k
      · subst h2
        simp [pySet, pyLookup, h1, Ne.symm h1]
      · simp [pySet, pyLookup, h1, h2, ih]

/-- Lookup distributes over list append, first list first. -/
theorem pyLookup_append (k : String) (xs ys : Obj) :
    pyLookup k (xs ++ ys) =
      match pyLookup k xs with
      | some v => some v
      | none => pyLookup k ys := by
  induction xs with
  | nil => simp [pyLookup]
  | cons kv rest ih =>
    obtain ⟨k', v'⟩ := kv
    by_cases h : k' = k <;> simp [pyLookup, h, ih]

/-- Reading through a Python dict merge: a key bound by the incoming dict
takes the incoming dict's (last) value for it; any other key keeps the value
from the base dict. -/
theorem pyLookup_pyMerge (a b : Obj) (k : String) :
    pyLookup k (pyMerge a b) =
      match pyLookup k b.reverse with
      | some v => some v
      | none => pyLookup k a := by
  induction b generalizing a with
  | nil => simp [pyMerge, pyLookup]
  | cons kv rest ih =>
    obtain ⟨k1, v1⟩ := kv
    have hstep : pyMerge a ((k1, v1) :: rest) = pyMerge (pySet a k1 v1) rest := rfl
    rw [hstep, ih]
    rw [List.reverse_cons, pyLookup_append]
    cases hr : pyLookup k rest.reverse with
    | some v => simp
    | none =>
      by_cases h1 : k1 = k <;> simp [pyLookup, h1, pyLookup_pySet]

/-- C1: contrary to the claim that the StateReconciler never raises,
`bulk_set_state` raises `TypeError` when a dotted update carries a mapping
value and the existing nested value at `parent[child]` is not a mapping:
Python evaluates a dict-unpacking of that non-mapping value
(src/state_utils.py line 52) with no type guard. At the concrete state
`state "quiz_state" = obj with "state" = "idle"` and the single update
`("quiz_state.state", obj with "phase" = "active")`, the call errors instead
of skipping the update. -/
theorem c1_reconciler_raises :
    bulk_set_state [("quiz_state", Json.pyDict [("state", Json.pyStr "idle")])]
      [("quiz_state.state", Json.pyDict [("phase", Json.pyStr "active")])]
    = .error notAMappingMsg := rfl

/-- C4: for a top-level (dot-free) field whose incoming value is a mapping
and whose current value is a mapping, the reconciler emits the shallow merge
of the two: a key written by the incoming mapping reads back with the
incoming value, and every other key keeps its current value (siblings
survive); and on the spec's concrete example — current state
`quiz_state = (state: idle, progress: 0)` and single update
`quiz_state = (state: awaiting_answer)` — the result is exactly
`(state: awaiting_answer, progress: 0)`. -/
theorem c4_toplevel_mapping_merge (state : Obj) (f : String) (cur vv : Obj)
    (hnd : splitFirst '.' f.toList = none)
    (hcur : pyLookup f state = some (.pyDict cur)) :
    bulk_set_state state [(f, .pyDict vv)] = .ok [(f, .pyDict (pyMerge cur vv))]
    ∧ (∀ k, pyLookup k (pyMerge cur vv) =
        match pyLookup k vv.reverse with
        | some x => some x
        | none => pyLookup k cur)
    ∧ bulk_set_state
        [("quiz_state", Json.pyDict [("state", Json.pyStr "idle"), ("progress", Json.pyInt 0)])]
        [("quiz_state", Json.pyDict [("state", Json.pyStr "awaiting_answer")])]
      = .ok [("quiz_state",
          Json.pyDict [("state", Json.pyStr "awaiting_answer"), ("progress", Json.pyInt 0)])] := by
  refine ⟨?_, fun k => pyLookup_pyMerge cur vv k, rfl⟩
  simp only [String.toList] at hnd
  simp [bulk_set_state, processUpdate, hnd, hcur]

/-- C4 witness: the general theorem applied at the spec's concrete example. -/
theorem c4_witness :
    bulk_set_state
      [("quiz_state", Json.pyDict [("state", Json.pyStr "idle"), ("progress", Json.pyInt 0)])]
      [("quiz_state", Json.pyDict [("state", Json.pyStr "awaiting_answer")])]
    = .ok [("quiz_state",
        Json.pyDict [("state", Json.pyStr "awaiting_answer"), ("progress", Json.pyInt 0)])] :=
  (c4_toplevel_mapping_merge
    [("quiz_state", Json.pyDict [("state", Json.pyStr "idle"), ("progress", Json.pyInt 0)])]
    "quiz_state"
    [("state", Json.pyStr "idle"), ("progress", Json.pyInt 0)]
    [("state", Json.pyStr "awaiting_answer")]
    rfl rfl).1

/-- C7: the reconciler is computed per update against the original snapshot:
splitting the update list anywhere gives the same results as reconciling the
two halves independently against the same state (so a later duplicate of a
field name never sees an earlier update's merge result), and on the concrete
duplicate-field example the second occurrence's merge does not contain the
first occurrence's key. The embedding passes the state by value, mirroring
the code's deep copies: the input state is never mutated. -/
theorem c7_snapshot_semantics (state : Obj) (us vs : List (String × Json)) :
    bulk_set_state state (us ++ vs)
      = (bulk_set_state state us).bind
          (fun a => (bulk_set_state state vs).map (fun b => a ++ b))
    ∧ bulk_set_state [("a", Json.pyDict [("x", Json.pyInt 1)])]
        [("a", Json.pyDict [("y", Json.pyInt 2)]), ("a", Json.pyDict [("z", Json.pyInt 3)])]
      = .ok [("a", Json.pyDict [("x", Json.pyInt 1), ("y", Json.pyInt 2)]),
             ("a", Json.pyDict [("x", Json.pyInt 1), ("z", Json.pyInt 3)])] := by
  refine ⟨?_, rfl⟩
  induction us with
  | nil =>
    cases h : bulk_set_state state vs <;>
      simp [bulk_set_state, Except.bind, Except.map, h]
  | cons u us ih =>
    obtain ⟨f, v⟩ := u
    show bulk_set_state state ((f, v) :: (us ++ vs)) = _
    cases hp : processUpdate state f v with
    | error e => simp [bulk_set_state, hp, Except.bind]
    | ok m =>
      cases hu : bulk_set_state state us with
      | error e =>
        have h2 : bulk_set_state state (us ++ vs) = Except.error e := by
          rw [ih, hu]; rfl
        simp [bulk_set_state, hp, hu, h2, Except.bind]
      | ok a =>
        cases hv : bulk_set_state state vs with
        | error e =>
          have h2 : bulk_set_state state (us ++ vs) = Except.error e := by
            rw [ih, hu, hv]; rfl
          simp [bulk_set_state, hp, hu, hv, h2, Except.bind, Except.map]
        | ok b =>
          have h2 : bulk_set_state state (us ++ vs) = Except.ok (a ++ b) := by
            rw [ih, hu, hv]; rfl
          simp [bulk_set_state, hp, hu, hv, h2, Except.bind, Except.map]

/-- C2 counterexample: the claim says a dotted update whose parent's existing
value is not a mapping still emits one `(parent, merged)` pair built from an
empty mapping ("the non-mapping value is discarded, not the update"). In the
code the `isinstance(parent_value, dict)` guard (src/state_utils.py line 48)
makes the whole update contribute nothing: with current state
`quiz_state = "idle"` and the single update `("quiz_state.state", 1)`,
reconcile returns the empty update list instead of
`[("quiz_state", obj with "state" = 1)]`. -/
theorem c2_counterexample :
    bulk_set_state [("quiz_state", Json.pyStr "idle")] [("quiz_state.state", Json.pyInt 1)]
      = .ok []
    ∧ bulk_set_state [("quiz_state", Json.pyStr "idle")] [("quiz_state.state", Json.pyInt 1)]
      ≠ .ok [("quiz_state", Json.pyDict [("state", Json.pyInt 1)])] := by
  refine ⟨rfl, ?_⟩
  intro h
  rw [show bulk_set_state [("quiz_state", Json.pyStr "idle")]
        [("quiz_state.state", Json.pyInt 1)] = .ok [] from rfl] at h
  simp at h

/-- C2 (amended): for a dotted update `parent.child`, when the parent's
existing value is present but not a mapping the update is skipped outright
(nothing is emitted for it); otherwise — parent absent (defaulting to an
empty mapping) or a mapping — exactly one `(parent, merged)` pair is
emitted, provided the call does not raise (it raises exactly when the
incoming value is a mapping and an existing `parent[child]` is not, see C1):
a mapping incoming value is shallow-merged into an existing mapping at
`parent[child]` or installed wholly when `child` is absent, a non-mapping
incoming value replaces `parent[child]` wholly, and every key of the parent
other than `child` keeps its current value. -/
theorem c2_dotted_update (state : Obj) (f : String) (p c : List Char) (v : Json)
    (hsplit : splitFirst '.' f.data = some (p, c)) :
    (∀ x, pyLookup (String.mk p) state = some x → Json.isObjB x = false →
        processUpdate state f v = .ok [])
    ∧ (∀ pv, (pyLookup (String.mk p) state = some (.pyDict pv) ∨
              (pyLookup (String.mk p) state = none ∧ pv = [])) →
        (∀ w old, v = .pyDict w → pyLookup (String.mk c) pv = some old →
            Json.isObjB old = true) →
        ∃ merged, processUpdate state f v = .ok [(String.mk p, .pyDict merged)]
          ∧ (∀ k, k ≠ String.mk c → pyLookup k merged = pyLookup k pv)
          ∧ (∀ w old, v = .pyDict w → pyLookup (String.mk c) pv = some (.pyDict old) →
               pyLookup (String.mk c) merged = some (.pyDict (pyMerge old w)))
          ∧ (∀ w, v = .pyDict w → pyLookup (String.mk c) pv = none →
               pyLookup (String.mk c) merged = some (.pyDict w))
          ∧ (Json.isObjB v = false → pyLookup (String.mk c) merged = some v)) := by
  constructor
  · intro x hx hnotobj
    cases x <;> simp_all [processUpdate, hsplit, Json.isObjB]
  · intro pv hpv hchild
    have hproc : processUpdate state f v
        = (mergeChild pv (String.mk c) v).map
            (fun pv' => [(String.mk p, Json.pyDict pv')]) := by
      rcases hpv with h | ⟨h, hnil⟩
      · simp [processUpdate, hsplit, h]
      · subst hnil; simp [processUpdate, hsplit, h]
    cases v with
    | pyDict w =>
      cases hc : pyLookup (String.mk c) pv with
      | none =>
        refine ⟨pySet pv (String.mk c) (.pyDict w), ?_, ?_, ?_, ?_, ?_⟩
        · rw [hproc]; simp [mergeChild, hc, Except.map]
        · intro k hk
          have hne : ¬ (String.mk c = k) := fun h => hk h.symm
          rw [pyLookup_pySet, if_neg hne]
        · intro w' old' _ hc'
          simp at hc'
        · intro w' hw' _
          have hww : w = w' := by injection hw'
          subst hww
          rw [pyLookup_pySet, if_pos rfl]
        · intro hnotobj
          simp [Json.isObjB] at hnotobj
      | some old =>
        have hobj := hchild w old rfl hc
        cases old with
        | pyDict ofs =>
          refine ⟨pySet pv (String.mk c) (.pyDict (pyMerge ofs w)), ?_, ?_, ?_, ?_, ?_⟩
          · rw [hproc]; simp [mergeChild, hc, Except.map]
          · intro k hk
            have hne : ¬ (String.mk c = k) := fun h => hk h.symm
            rw [pyLookup_pySet, if_neg hne]
          · intro w' old' hw' hc'
            have hww : w = w' := by injection hw'
            have hoo : Json.pyDict ofs = Json.pyDict old' := by injection hc'
            have hoo2 : ofs = old' := by injection hoo
            subst hww; subst hoo2
            rw [pyLookup_pySet, if_pos rfl]
          · intro w' _ hcontra
            simp at hcontra
          · intro hnotobj
            simp [Json.isObjB] at hnotobj
        | pyNone => simp [Json.isObjB] at hobj
        | pyBool b => simp [Json.isObjB] at hobj
        | pyInt n => simp [Json.isObjB] at hobj
        | pyStr s => simp [Json.isObjB] at hobj
        | pyList l => simp [Json.isObjB] at hobj
    | pyNone =>
      refine ⟨pySet pv (String.mk c) Json.pyNone, ?_, ?_, ?_, ?_, ?_⟩
      · rw [hproc]; simp [mergeChild, Except.map]
      · intro k hk
        have hne : ¬ (String.mk c = k) := fun h => hk h.symm
        rw [pyLookup_pySet, if_neg hne]
      · intro w' old' hw' _; simp at hw'
      · intro w' hw' _; simp at hw'
      · intro _; rw [pyLookup_pySet, if_pos rfl]
    | pyBool b =>
      refine ⟨pySet pv (String.mk c) (Json.pyBool b), ?_, ?_, ?_, ?_, ?_⟩
      · rw [hproc]; simp [mergeChild, Except.map]
      · intro k hk
        have hne : ¬ (String.mk c = k) := fun h => hk h.symm
        rw [pyLookup_pySet, if_neg hne]
      · intro w' old' hw' _; simp at hw'
      · intro w' hw' _; simp at hw'
      · intro _; rw [pyLookup_pySet, if_pos rfl]
    | pyInt n =>
      refine ⟨pySet pv (String.mk c) (Json.pyInt n), ?_, ?_, ?_, ?_, ?_⟩
      · rw [hproc]; simp [mergeChild, Except.map]
      · intro k hk
        have hne : ¬ (String.mk c = k) := fun h => hk h.symm
        rw [pyLookup_pySet, if_neg hne]
      · intro w' old' hw' _; simp at hw'
      · intro w' hw' _; simp at hw'
      · intro _; rw [pyLookup_pySet, if_pos rfl]
    | pyStr s =>
      refine ⟨pySet pv (String.mk c) (Json.pyStr s), ?_, ?_, ?_, ?_, ?_⟩
      · rw [hproc]; simp [mergeChild, Except.map]
      · intro k hk
        have hne : ¬ (String.mk c = k) := fun h => hk h.symm
        rw [pyLookup_pySet, if_neg hne]
      · intro w' old' hw' _; simp at hw'
      · intro w' hw' _; simp at hw'
      · intro _; rw [pyLookup_pySet, if_pos rfl]
    | pyList l =>
      refine ⟨pySet pv (String.mk c) (Json.pyList l), ?_, ?_, ?_, ?_, ?_⟩
      · rw [hproc]; simp [mergeChild, Except.map]
      · intro k hk
        have hne : ¬ (String.mk c = k) := fun h => hk h.symm
        rw [pyLookup_pySet, if_neg hne]
      · intro w' old' hw' _; simp at hw'
      · intro w' hw' _; simp at hw'
      · intro _; rw [pyLookup_pySet, if_pos rfl]

/-- C2 witness: the amended theorem applied to a concrete dotted update on a
present mapping parent with an absent child and a scalar incoming value. -/
theorem c2_witness :
    isOkE (processUpdate [("quiz_state", Json.pyDict [("state", Json.pyStr "idle")])]
      "quiz_state.progress" (Json.pyInt 5)) = true := by
  obtain ⟨merged, hm, -, -, -, -⟩ :=
    (c2_dotted_update [("quiz_state", Json.pyDict [("state", Json.pyStr "idle")])]
      "quiz_state.progress" "quiz_state".toList "progress".toList (Json.pyInt 5) rfl).2
      [("state", Json.pyStr "idle")] (Or.inl rfl)
      (fun w old hw _ => by cases hw)
  rw [hm]
  rfl

/-- C3 counterexample: the claim says the populator's result replaces
`flashcard_states` wholly "including when that result is the empty
sequence"; the code guards the assignment with `if flashcard_states:`
(src/quiz_agentic_design.py line 235), so an empty result leaves the
existing field untouched. With a repository returning no records, the field
keeps its old one-record value instead of becoming empty. -/
theorem c3_counterexample :
    execute_plan (fun _ => [])
      [("flashcard_states", Json.pyList [Json.pyDict [("id", Json.pyInt 7)]])]
      [⟨"populate_flashcards", [("topic_id", Json.pyInt 1)]⟩]
    = .ok [("flashcard_states", Json.pyList [Json.pyDict [("id", Json.pyInt 7)]])]
    ∧ populate_flashcards (fun _ => []) (Json.pyInt 1) = []
    ∧ Json.pyList [Json.pyDict [("id", Json.pyInt 7)]] ≠ Json.pyList [] := by
  refine ⟨rfl, rfl, ?_⟩
  intro h
  simp at h

/-- C3 (amended): for every `populate_flashcards` plan step with a non-empty
tool input, `execute_plan` routes the extracted topic value through
`populate_flashcards` and replaces the `flashcard_states` field wholly with
the result when that result is non-empty; when the result is the empty
sequence, the working state is left unchanged. -/
theorem c3_populate_replacement (repo : Json → List Flashcard) (state : Obj)
    (k : String) (v : Json) (rest : List (String × Json)) :
    (populate_flashcards repo v = [] →
      execute_plan repo state [⟨"populate_flashcards", (k, v) :: rest⟩] = .ok state)
    ∧ (populate_flashcards repo v ≠ [] →
      execute_plan repo state [⟨"populate_flashcards", (k, v) :: rest⟩]
        = .ok (pySet state "flashcard_states" (.pyList (populate_flashcards repo v)))) := by
  have hstep : execute_plan repo state [⟨"populate_flashcards", (k, v) :: rest⟩]
      = .ok (if (populate_flashcards repo v).isEmpty then state
             else pySet state "flashcard_states" (.pyList (populate_flashcards repo v))) := rfl
  constructor
  · intro h
    rw [hstep, h]
    rfl
  · intro h
    rw [hstep, if_neg]
    simp [List.isEmpty_iff, h]

/-- C3 witness: the amended theorem applied at a concrete two-record
repository (non-empty case) and at a topic with no records (empty case). -/
theorem c3_witness :
    execute_plan
      (fun j => match j with
        | .pyInt 1 => [⟨1, 1, "Q1", "M1"⟩, ⟨2, 1, "Q2", "M2"⟩]
        | _ => [])
      [("quiz_state", Json.pyStr "idle")]
      [⟨"populate_flashcards", [("topic_id", Json.pyInt 5)]⟩] = .ok [("quiz_state", Json.pyStr "idle")]
    ∧ execute_plan
      (fun j => match j with
        | .pyInt 1 => [⟨1, 1, "Q1", "M1"⟩, ⟨2, 1, "Q2", "M2"⟩]
        | _ => [])
      [("quiz_state", Json.pyStr "idle")]
      [⟨"populate_flashcards", [("topic_id", Json.pyInt 1)]⟩]
      = .ok (pySet [("quiz_state", Json.pyStr "idle")] "flashcard_states"
          (.pyList (populate_flashcards
            (fun j => match j with
              | .pyInt 1 => [⟨1, 1, "Q1", "M1"⟩, ⟨2, 1, "Q2", "M2"⟩]
              | _ => [])
            (Json.pyInt 1)))) := by
  constructor
  · exact (c3_populate_replacement
      (fun j => match j with
        | .pyInt 1 => [⟨1, 1, "Q1", "M1"⟩, ⟨2, 1, "Q2", "M2"⟩]
        | _ => [])
      [("quiz_state", Json.pyStr "idle")] "topic_id" (Json.pyInt 5) []).1 rfl
  · exact (c3_populate_replacement
      (fun j => match j with
        | .pyInt 1 => [⟨1, 1, "Q1", "M1"⟩, ⟨2, 1, "Q2", "M2"⟩]
        | _ => [])
      [("quiz_state", Json.pyStr "idle")] "topic_id" (Json.pyInt 1) []).2
      (fun h => List.noConfusion h)

/-- C5 counterexample: the claim says a `flashcard_states` item whose value
decodes to a sequence containing a non-mapping element is dropped entirely
and never inserted as a partially-filtered sequence; the code instead keeps
the item after filtering out the non-mapping elements
(src/state_utils.py line 127). On the input item
`flashcard_states=[(mapping with id 1), 2]`, the parser returns the item
with the filtered one-element list rather than dropping it. -/
theorem c5_counterexample :
    parse_tool_input "flashcard_states=[\x7b\"id\": 1\x7d, 2]"
      = [("flashcard_states", Json.pyList [Json.pyDict [("id", Json.pyInt 1)]])]
    ∧ parse_tool_input "flashcard_states=[\x7b\"id\": 1\x7d, 2]" ≠ [] := by
  refine ⟨rfl, ?_⟩
  intro h
  rw [show parse_tool_input "flashcard_states=[\x7b\"id\": 1\x7d, 2]"
      = [("flashcard_states", Json.pyList [Json.pyDict [("id", Json.pyInt 1)]])] from rfl] at h
  simp at h

/-- C5 (amended): for an item whose key is the reserved name
`flashcard_states`, a value that fails to decode drops the whole item (never
inserted as raw text), a value that decodes to a non-sequence drops the
whole item, and a value that decodes to a sequence keeps the item with its
non-mapping elements filtered out. -/
theorem c5_flashcard_states_items (item : String) (ks vs : List Char)
    (hsplit : splitFirst '=' item.data = some (ks, vs))
    (hkey : String.mk (pyStripCL ks) = "flashcard_states") :
    (jsonLoads (String.mk (pyStripCL vs)) = none → processItem item = none)
    ∧ (∀ l, jsonLoads (String.mk (pyStripCL vs)) = some (.pyList l) →
        processItem item = some ("flashcard_states", .pyList (l.filter Json.isObjB)))
    ∧ (∀ j, jsonLoads (String.mk (pyStripCL vs)) = some j → (∀ l, j ≠ .pyList l) →
        processItem item = none) := by
  refine ⟨?_, ?_, ?_⟩
  · intro h
    simp [processItem, hsplit, hkey, h]
  · intro l h
    simp [processItem, hsplit, hkey, h]
  · intro j h hnotarr
    cases j with
    | pyList l => exact absurd rfl (hnotarr l)
    | pyNone => simp [processItem, hsplit, hkey, h]
    | pyBool b => simp [processItem, hsplit, hkey, h]
    | pyInt n => simp [processItem, hsplit, hkey, h]
    | pyStr s => simp [processItem, hsplit, hkey, h]
    | pyDict fs => simp [processItem, hsplit, hkey, h]

/-- C5 witness: the amended theorem applied at concrete items — a value
decoding to a non-sequence, and a value that fails to decode. -/
theorem c5_witness :
    processItem "flashcard_states=5" = none
    ∧ processItem "flashcard_states=notjson" = none := by
  constructor
  · exact (c5_flashcard_states_items "flashcard_states=5"
      "flashcard_states".toList "5".toList rfl rfl).2.2 (Json.pyInt 5) rfl
      (fun l h => by cases h)
  · exact (c5_flashcard_states_items "flashcard_states=notjson"
      "flashcard_states".toList "notjson".toList rfl rfl).1 rfl

/-- C10: executing a `populate_flashcards` step with an empty tool input
raises `IndexError` (the code indexes `tool_input[0][1]` unguarded,
src/quiz_agentic_design.py line 234) instead of skipping the step; and for a
non-empty tool input the topic passed to the populator is the first pair's
value whatever its key is: the execution result is identical to executing
the step with only `("topic_id", v)` as input. -/
theorem c10_populate_dispatch (repo : Json → List Flashcard) (state : Obj)
    (k : String) (v : Json) (rest : List (String × Json)) :
    execute_plan repo state [⟨"populate_flashcards", []⟩]
      = .error "IndexError: list index out of range"
    ∧ execute_plan repo state [⟨"populate_flashcards", (k, v) :: rest⟩]
      = execute_plan repo state [⟨"populate_flashcards", [("topic_id", v)]⟩] :=
  ⟨rfl, rfl⟩

/-- The step loop processes fragments independently, so it distributes over
list concatenation. -/
theorem parseSectionSteps_append (desc : String) (l1 l2 : List String) :
    parseSectionSteps desc (l1 ++ l2)
      = parseSectionSteps desc l1 ++ parseSectionSteps desc l2 := by
  induction l1 with
  | nil => simp [parseSectionSteps]
  | cons frag rest ih =>
    cases h : parseStepFragment desc frag <;>
      simp [parseSectionSteps, h, ih]

/-- A fragment satisfying one of the malformed-step conditions is skipped by
the step loop, whatever the section description is. -/
theorem parseStepFragment_of_malformed (frag : String)
    (hbad : malformedStep frag = true) (desc : String) :
    parseStepFragment desc frag = none := by
  unfold malformedStep at hbad
  unfold parseStepFragment
  cases hs : splitFirst '=' frag.toList with
  | none => rfl
  | some sp =>
    obtain ⟨sp0, sp1⟩ := sp
    rw [hs] at hbad
    simp only at hbad
    cases hi : List.findIdx? (fun c => c = '[') (pyStripCL sp1) with
    | none => simp [hi]
    | some i =>
      rw [hi] at hbad
      simp only at hbad
      cases hc : findClose (List.drop i (pyStripCL sp1)) 0 with
      | none => simp [hi, hc]
      | some j => rw [hc] at hbad; simp at hbad

/-- C6: the PlanResponseParser is total by construction (every malformed
fragment maps to a skip, mirroring the code's catch-and-continue handlers),
and malformed steps are isolated: a fragment with no `=`, no `[` after the
tool name, or brackets whose depth never returns to zero contributes
nothing, and the remaining fragments of the section parse exactly as if the
malformed one were absent, in source order; concretely, in a response whose
middle step has unbalanced brackets, the two well-formed steps still appear,
in order, with their parsed inputs. -/
theorem c6_malformed_step_isolation (desc : String) (l1 l2 : List String)
    (bad : String) (hbad : malformedStep bad = true) :
    parseSectionSteps desc (l1 ++ bad :: l2) = parseSectionSteps desc (l1 ++ l2)
    ∧ parse_llm_plan_response "Plan: T\n#E1 = a[x=1]\n#E2 = b[oops\n#E3 = c[y=2]"
      = [("T", "E1", "a", [("x", Json.pyInt 1)]), ("T", "E3", "c", [("y", Json.pyInt 2)])] := by
  refine ⟨?_, rfl⟩
  rw [parseSectionSteps_append, parseSectionSteps_append]
  have hskip : parseSectionSteps desc (bad :: l2) = parseSectionSteps desc l2 := by
    simp [parseSectionSteps, parseStepFragment_of_malformed bad hbad desc]
  rw [hskip]

/-- C6 witness: the isolation theorem applied at a concrete section whose
middle fragment has unbalanced brackets. -/
theorem c6_witness :
    parseSectionSteps "T" (["1 = a[x=1]"] ++ "2 = b[oops" :: ["3 = c[y=2]"])
      = parseSectionSteps "T" (["1 = a[x=1]"] ++ ["3 = c[y=2]"]) :=
  (c6_malformed_step_isolation "T" ["1 = a[x=1]"] ["3 = c[y=2]"] "2 = b[oops" rfl).1

/-- Field access on a JSON mapping value. -/
def jGet (k : String) : Json → Option Json
  | .pyDict fs => pyLookup k fs
  | _ => none

/-- C8: `populate_flashcards` returns the empty sequence exactly when the
repository returns no records; every returned entry has `attempts = 0`, an
empty `user_answers` and a null `evaluation`; and on a non-empty repository
result the first entry's status is `active` while every later entry's status
is `queued` (so exactly one entry is active, at index 0). -/
theorem c8_populate_invariant (repo : Json → List Flashcard) (t : Json) :
    (repo t = [] → populate_flashcards repo t = [])
    ∧ (∀ c, c ∈ populate_flashcards repo t →
        jGet "attempts" c = some (.pyInt 0)
        ∧ jGet "user_answers" c = some (.pyList [])
        ∧ jGet "evaluation" c = some .pyNone)
    ∧ (repo t ≠ [] → ∃ c cs, populate_flashcards repo t = c :: cs
        ∧ jGet "status" c = some (.pyStr "active")
        ∧ ∀ d ∈ cs, jGet "status" d = some (.pyStr "queued")) := by
  cases h : repo t with
  | nil =>
    refine ⟨fun _ => by simp [populate_flashcards, h], ?_, fun hne => absurd rfl hne⟩
    intro c hc
    simp [populate_flashcards, h] at hc
  | cons r rs =>
    have hpop : populate_flashcards repo t
        = setStatusActive (flashcardEntry r) :: rs.map flashcardEntry := by
      simp [populate_flashcards, h]
    refine ⟨fun hcontra => by simp at hcontra, ?_, ?_⟩
    · intro c hc
      rw [hpop] at hc
      rcases List.mem_cons.mp hc with hhead | htail
      · subst hhead
        exact ⟨rfl, rfl, rfl⟩
      · obtain ⟨r', _, hr'⟩ := List.mem_map.mp htail
        subst hr'
        exact ⟨rfl, rfl, rfl⟩
    · intro _
      refine ⟨setStatusActive (flashcardEntry r), rs.map flashcardEntry, hpop, rfl, ?_⟩
      intro d hd
      obtain ⟨r', _, hr'⟩ := List.mem_map.mp hd
      subst hr'
      rfl

/-- C8 witness: the invariant applied at a concrete two-record repository
(non-empty case) and at a topic with no records (empty case). -/
theorem c8_witness :
    populate_flashcards
      (fun j => match j with
        | .pyInt 1 => [⟨1, 1, "Q1", "M1"⟩, ⟨2, 1, "Q2", "M2"⟩]
        | _ => []) (Json.pyInt 2) = []
    ∧ jGet "status" ((populate_flashcards
        (fun j => match j with
          | .pyInt 1 => [⟨1, 1, "Q1", "M1"⟩, ⟨2, 1, "Q2", "M2"⟩]
          | _ => []) (Json.pyInt 1)).headD Json.pyNone) = some (Json.pyStr "active") := by
  constructor
  · exact (c8_populate_invariant
      (fun j => match j with
        | .pyInt 1 => [⟨1, 1, "Q1", "M1"⟩, ⟨2, 1, "Q2", "M2"⟩]
        | _ => []) (Json.pyInt 2)).1 rfl
  · obtain ⟨c, cs, hEq, hSt, -⟩ := (c8_populate_invariant
      (fun j => match j with
        | .pyInt 1 => [⟨1, 1, "Q1", "M1"⟩, ⟨2, 1, "Q2", "M2"⟩]
        | _ => []) (Json.pyInt 1)).2.2 (fun hx => List.noConfusion hx)
    rw [hEq]
    simpa using hSt

/-- C9: the evaluation preconditions fail — the call raises rather than
silently skipping — exactly when no entry of the flashcard-state sequence
has status `active`, or when the first active entry has an empty
`user_answers` sequence; in every other case the evaluator input is
assembled without raising. The model covers the code up to the external
evaluator-chain invocation, so both raises happen before that call. -/
theorem c9_evaluate_preconditions (cards : List FlashcardState) :
    isOkE (evaluate_preconditions cards) = false ↔
      ((∀ c ∈ cards, c.status ≠ "active")
       ∨ (∃ c, cards.find? (fun d => d.status == "active") = some c
            ∧ c.user_answers = [])) := by
  cases hf : cards.find? (fun d => d.status == "active") with
  | none =>
    have hall := List.find?_eq_none.mp hf
    constructor
    · intro _
      exact Or.inl (fun c hc => by simpa using hall c hc)
    · intro _
      simp [evaluate_preconditions, hf, isOkE]
  | some card =>
    have hmem := List.mem_of_find?_eq_some hf
    have hact : card.status = "active" := by simpa using List.find?_some hf
    by_cases he : card.user_answers = []
    · constructor
      · intro _
        exact Or.inr ⟨card, rfl, he⟩
      · intro _
        simp [evaluate_preconditions, hf, he, isOkE]
    · constructor
      · intro hfail
        rw [show evaluate_preconditions cards
            = .ok ⟨card.question, card.marking_criteria, card.user_answers.getLastD ""⟩
          from by simp [evaluate_preconditions, hf, he]] at hfail
        simp [isOkE] at hfail
      · rintro (hnone | ⟨c, hc, hce⟩)
        · exact absurd hact (hnone card hmem)
        · have : card = c := by injection hc
          subst this
          exact absurd hce he
